import Mathlib

/-!
Verification development for the `curious_snake` active-learning core
(`learners/base_learner.py`).  The Python source is shallowly embedded:
pure/stateful methods of `BaseLearner` become Lean functions with explicit
state passing, machine integers become `Int`/`Nat`, and code that raises
exceptions returns `Except`.  The example-store (`dataset` module) is an
external file of the repository that is not available; its operations are
modelled from the specification's Example Store contract and are marked
`Modelled from the spec:` in their doc comments.
-/

namespace CuriousSnake

/-- An example record, as described by the spec's data model: a unique
identifier, a ground-truth label (`label`), the current working label
(`lbl`, possibly synthetic), the synthetic-label flag, and a feature
vector (`point`).  Labels use the binary `{-1,+1}` integer encoding. -/
structure Instance where
  id : Nat
  label : Int
  lbl : Int
  has_synthetic_label : Bool
  point : List Int
deriving DecidableEq, Repr

/-- `svm_parameter()` from libsvm: an opaque parameter configuration
(external collaborator; its contents are irrelevant to the claims). -/
structure svm_parameter where
deriving DecidableEq, Repr

/-- A trained model (external Classifier collaborator): it can predict a
label for a feature vector and compute a distance or a cosine-like
similarity between two feature vectors in its induced space.  Scalars are
modelled as `Int`. -/
structure Model where
  predict : List Int → Int
  compute_cos_between_examples : List Int → List Int → Int
  compute_dist_between_examples : List Int → List Int → Int

/-! ## Example Store operations (spec-modelled)

The `dataset` module is part of the repository but is not among the
provided sources; the following operations are modelled from the spec's
Example Store contract (§6) and §4.4/§4.5.  A dataset is a list of
instances. -/

/-- Modelled from the spec: `remove(identifiers) → removed items`.
Removes from the dataset every instance whose identifier occurs in
`inst_ids` and returns `(removed, remaining)`, both in original order. -/
def remove_instances (d : List Instance) (inst_ids : List Nat) :
    List Instance × List Instance :=
  (d.filter (fun x => decide (x.id ∈ inst_ids)),
   d.filter (fun x => decide (x.id ∉ inst_ids)))

/-- Modelled from the spec: `insert(items)` appends the given items to the
dataset. -/
def add_instances (d new : List Instance) : List Instance := d ++ new

/-- Modelled from the spec: `all_identifiers() → sequence`; the list of
identifiers of the dataset's instances. -/
def get_instance_ids (d : List Instance) : List Nat := d.map Instance.id

/-- Modelled from the spec: `count(class=minority)`.  Under the binary
`{-1,+1}` encoding (§4.3) the minority class is the positive one; the
count uses the current working label `lbl` (the source comments that
assumed positives are included). -/
def number_of_minority_examples (d : List Instance) : Nat :=
  (d.filter (fun x => decide (x.lbl = 1))).length

/-- Modelled from the spec: `count(class=majority)`; the negative class. -/
def number_of_majority_examples (d : List Instance) : Nat :=
  (d.filter (fun x => decide (x.lbl = -1))).length

/-- Modelled from the spec: `undersample(k)` removes `k` majority-class
instances from the dataset and returns `(removed, remaining)`.  The store
picks the instances to remove; this model deterministically removes the
first `k` majority instances, using the store's remove-by-identifier
operation.  The claims under verification are independent of which
majority instances the store picks. -/
def undersample (d : List Instance) (k : Nat) : List Instance × List Instance :=
  let removed := (d.filter (fun x => decide (x.lbl = -1))).take k
  (removed, (remove_instances d (removed.map Instance.id)).2)

/-- Modelled from the spec: `pick_random(k, class=minority) → identifiers`.
Deterministic model: the identifiers of the first `k` minority instances
(the claims under verification are independent of the random choice). -/
def pick_random_minority_instances (d : List Instance) (k : Nat) : List Nat :=
  ((d.filter (fun x => decide (x.lbl = 1))).take k).map Instance.id

/-- Modelled from the spec: `pick_random(k, class=majority) → identifiers`. -/
def pick_random_majority_instances (d : List Instance) (k : Nat) : List Nat :=
  ((d.filter (fun x => decide (x.lbl = -1))).take k).map Instance.id

/-! ## Learner state: parallel per-feature-space partitions -/

/-- The partition state of `BaseLearner`: one unlabeled and one labeled
dataset per feature space (`self.unlabeled_datasets` /
`self.labeled_datasets`).  The constructor creates one empty labeled
dataset per unlabeled dataset, so the two lists have equal length. -/
structure LearnerState where
  unlabeled_datasets : List (List Instance)
  labeled_datasets : List (List Instance)
deriving DecidableEq, Repr

/-- Models a Python `for a, b in zip(xs, ys)` loop that replaces each
paired element: pairs are transformed by `f`; elements beyond the shorter
list are left untouched (exactly `zip`'s truncation behaviour). -/
def zipApply (f : α → β → α × β) : List α → List β → List α × List β
  | a :: as, b :: bs =>
    let p := f a b
    let q := zipApply f as bs
    (p.1 :: q.1, p.2 :: q.2)
  | as, bs => (as, bs)

/-- `label_instances_in_all_datasets` (base_learner.py:109): for every
feature space in lockstep, remove the instances with the given ids from
the unlabeled dataset and add them to the labeled dataset. -/
def label_instances_in_all_datasets (s : LearnerState) (inst_ids : List Nat) :
    LearnerState :=
  let p := zipApply
    (fun u l =>
      let r := remove_instances u inst_ids
      (r.2, add_instances l r.1))
    s.unlabeled_datasets s.labeled_datasets
  ⟨p.1, p.2⟩

/-- `label_all_data` (base_learner.py:102): labels every instance of
feature space 0's unlabeled dataset (in all feature spaces). -/
def label_all_data (s : LearnerState) : LearnerState :=
  label_instances_in_all_datasets s
    (get_instance_ids (s.unlabeled_datasets.headD []))

/-- The index-triggered label restoration inside `unlabel_instances`
(base_learner.py:230): instance `i` of each labeled dataset has its
working label reset to the ground-truth label and its synthetic flag
cleared whenever instance `i` of labeled dataset 0 has an id in
`inst_ids` (`trigger i`). -/
def restore_go (trigger : Nat → Bool) : Nat → List Instance → List Instance
  | _, [] => []
  | i, inst :: rest =>
    (if trigger i then
      { inst with lbl := inst.label, has_synthetic_label := false }
     else inst) :: restore_go trigger (i + 1) rest

/-- Applies `f` to the first `n` elements of a list (the feature spaces
covered by the source's `zip(unlabeled_datasets, labeled_datasets)`). -/
def applyFirst (f : α → α) : Nat → List α → List α
  | 0, l => l
  | _ + 1, [] => []
  | n + 1, a :: l => f a :: applyFirst f n l

/-- `unlabel_instances` (base_learner.py:229): restores ground-truth
labels at the triggered indices, then moves the instances with the given
ids from the labeled back to the unlabeled datasets in every feature
space.  (The source indexes all spaces with positions computed from
space 0; the constructor keeps the partition lists equally long.) -/
def unlabel_instances (s : LearnerState) (inst_ids : List Nat) : LearnerState :=
  let d0 := s.labeled_datasets.headD []
  let trigger : Nat → Bool := fun i =>
    match d0[i]? with
    | some inst => decide (inst.id ∈ inst_ids)
    | none => false
  let nPaired := min s.unlabeled_datasets.length s.labeled_datasets.length
  let labeled1 := applyFirst (restore_go trigger 0) nPaired s.labeled_datasets
  let p := zipApply
    (fun u l =>
      let r := remove_instances l inst_ids
      (add_instances u r.1, r.2))
    s.unlabeled_datasets labeled1
  ⟨p.1, p.2⟩

/-- `pick_balanced_initial_training_set` (base_learner.py:152): picks `k`
minority and `k` majority ids from feature space 0's unlabeled pool and
labels them in all datasets, returning the chosen ids. -/
def pick_balanced_initial_training_set (s : LearnerState) (k : Nat) :
    LearnerState × List Nat :=
  let d0 := s.unlabeled_datasets.headD []
  let minority_ids_to_label := pick_random_minority_instances d0 k
  let majority_ids_to_label := pick_random_majority_instances d0 k
  let all_ids_to_label := minority_ids_to_label ++ majority_ids_to_label
  (label_instances_in_all_datasets s all_ids_to_label, all_ids_to_label)

/-! ## Query functions -/

/-- `base_q_function` (base_learner.py:68): the query function installed by
the constructor (`self.query_function = self.base_q_function`, line 59);
it raises `"no query function provided!"` unless overridden. -/
def base_q_function (_k : Nat) : Except String (List Nat) :=
  .error "no query function provided!"

/-- The constructor's default value of `self.query_function`
(base_learner.py:59). -/
def default_query_function : Nat → Except String (List Nat) :=
  base_q_function

/-- `get_random_unlabeled_ids`'s selection loop (base_learner.py:197):
`k` rounds of `random.choice(ids)` followed by `ids.remove(random_id)`.
The external randomness of `random.choice` is modelled by the oracle
`choice`, which picks the index of the chosen element in the current id
list (reduced modulo its length); `random.choice` of an empty sequence
raises, which the model reports as an error. -/
def get_random_unlabeled_ids_go (choice : List Nat → Nat) :
    Nat → List Nat → Except String (List Nat)
  | 0, _ => .ok []
  | k + 1, ids =>
    if ids.length = 0 then
      .error "Cannot choose from an empty sequence"
    else
      let random_id := ids.getD (choice ids % ids.length) 0
      (get_random_unlabeled_ids_go choice k (ids.erase random_id)).map
        (fun rest => random_id :: rest)

/-- `get_random_unlabeled_ids` (base_learner.py:191): a random set of `k`
instance ids drawn without replacement from feature space 0's unlabeled
pool. -/
def get_random_unlabeled_ids (choice : List Nat → Nat) (s : LearnerState)
    (k : Nat) : Except String (List Nat) :=
  get_random_unlabeled_ids_go choice k
    (get_instance_ids (s.unlabeled_datasets.headD []))

/-! ## The active-learning loop

`active_learn` (base_learner.py:73) runs `query_function`, labels the
returned ids (if any), optionally rebuilds the models, and increments
`labeled_so_far` by the batch size until the budget is reached; a final
rebuild always follows the loop.  The query function is externally impure
(it may consult randomness); its successive return values are modelled by
an oracle `query` indexed by the invocation number.  `rebuild_models`
does not alter the partitions, so on `LearnerState` it is a counted
no-op: the loop returns the final state, the number of loop iterations,
and the number of `rebuild_models` invocations made during the loop. -/
def active_learn_go (query : Nat → List Nat) (num_examples_to_label
    num_to_label_at_each_iteration : Nat)
    (hb : 0 < num_to_label_at_each_iteration)
    (rebuild_models_at_each_iter : Bool) (s : LearnerState)
    (iter labeled_so_far : Nat) : LearnerState × Nat × Nat :=
  if labeled_so_far < num_examples_to_label then
    let example_ids_to_label := query iter
    let s1 := if example_ids_to_label = [] then s
      else label_instances_in_all_datasets s example_ids_to_label
    let r := if rebuild_models_at_each_iter then 1 else 0
    let rest := active_learn_go query num_examples_to_label
      num_to_label_at_each_iteration hb rebuild_models_at_each_iter s1
      (iter + 1) (labeled_so_far + num_to_label_at_each_iteration)
    (rest.1, rest.2.1 + 1, rest.2.2 + r)
  else (s, 0, 0)
termination_by num_examples_to_label - labeled_so_far
decreasing_by omega

/-- `active_learn` (base_learner.py:73): the loop starting from
`labeled_so_far = 0`, followed by the unconditional final
`rebuild_models()` (line 98).  Returns the final partition state, the
number of loop iterations, and the total number of `rebuild_models`
invocations (the final one included). -/
def active_learn (query : Nat → List Nat) (num_examples_to_label
    num_to_label_at_each_iteration : Nat)
    (hb : 0 < num_to_label_at_each_iteration)
    (rebuild_models_at_each_iter : Bool) (s : LearnerState) :
    LearnerState × Nat × Nat :=
  let r := active_learn_go query num_examples_to_label
    num_to_label_at_each_iteration hb rebuild_models_at_each_iter s 0 0
  (r.1, r.2.1, r.2.2 + 1)

/-! ## Undersampling -/

/-- `undersample_labeled_datasets` (base_learner.py:163).  Raises
`"No labeled data has been provided!"` when there are no labeled datasets
or feature space 0's labeled dataset is empty.  A Python `k=None` default
(and, via the `if not k:` falsy test, also an explicit `k=0`) recomputes
`k` as majority count minus minority count of feature space 0.  Removal
happens on *copies* only when `0 < k < majority count`; the ids removed
from feature space 0's copy are removed from every other space's copy. -/
def undersample_labeled_datasets (lds : List (List Instance))
    (k : Option Int) : Except String (List (List Instance)) :=
  match lds with
  | [] => .error "No labeled data has been provided!"
  | d0 :: rest =>
    if d0.length = 0 then .error "No labeled data has been provided!"
    else
      let k2 : Int :=
        match k with
        | none => (number_of_majority_examples d0 : Int) -
            (number_of_minority_examples d0 : Int)
        | some v =>
          if v = 0 then (number_of_majority_examples d0 : Int) -
            (number_of_minority_examples d0 : Int)
          else v
      if k2 < (number_of_majority_examples d0 : Int) ∧ 0 < k2 then
        let p := undersample d0 k2.toNat
        let removed_instance_nums := p.1.map Instance.id
        .ok (p.2 ::
          rest.map (fun d => (remove_instances d removed_instance_nums).2))
      else
        .ok (d0 :: rest)

/-! ## Distance / diversity caches

`self.div_hash` and `self.dist_hash` are Python dicts keyed by ordered
pairs of instance ids; modelled as association lists (entries are only
ever inserted for absent keys). -/

/-- A cache: an association list from id pairs to scalars. -/
abbrev PairHash := List ((Nat × Nat) × Int)

/-- Dict lookup: the value of the first entry with the given key. -/
def hash_find : PairHash → Nat × Nat → Option Int
  | [], _ => none
  | e :: h, key => if e.1 = key then some e.2 else hash_find h key

/-- Dict insertion of an absent key. -/
def hash_insert (h : PairHash) (key : Nat × Nat) (v : Int) : PairHash :=
  h ++ [(key, v)]

/-- `_compute_cos` (base_learner.py:262): returns the cached similarity
for `(x.id, y.id)` if present, otherwise computes it via the model and
caches it.  Returns the value and the updated cache. -/
def _compute_cos (model : Model) (x y : Instance) (div_hash : PairHash) :
    Int × PairHash :=
  match hash_find div_hash (x.id, y.id) with
  | some v => (v, div_hash)
  | none =>
    let v := model.compute_cos_between_examples x.point y.point
    (v, hash_insert div_hash (x.id, y.id) v)

/-- `_compute_div` (base_learner.py:250): sums over the reference set the
cached (or freshly computed and cached) similarity of `x` to each `y`.
Instrumented with the list of keys for which the model's similarity
computation is actually invoked; returns `(sum, cache, invoked keys)`. -/
def _compute_div (model : Model) : List Instance → Instance → PairHash →
    Int × PairHash × List (Nat × Nat)
  | [], _, h => (0, h, [])
  | y :: ys, x, h =>
    match hash_find h (x.id, y.id) with
    | some v =>
      let r := _compute_div model ys x h
      (v + r.1, r.2.1, r.2.2)
    | none =>
      let v := model.compute_cos_between_examples x.point y.point
      let h1 := hash_insert h (x.id, y.id) v
      let r := _compute_div model ys x h1
      (v + r.1, r.2.1, (x.id, y.id) :: r.2.2)

/-- `_get_dist_from_l` (base_learner.py:240): minimum cached distance of
`x` to the reference set.  The running minimum starts as `None`; the
source's `if not min_dist or ...` also treats a stored minimum of `0` as
absent (Python falsiness), which this model reproduces. -/
def _get_dist_from_l_go (model : Model) (x : Instance) :
    List Instance → PairHash → Option Int → Option Int × PairHash
  | [], h, min_dist => (min_dist, h)
  | y :: ys, h, min_dist =>
    let p :=
      match hash_find h (x.id, y.id) with
      | some v => (v, h)
      | none =>
        let v := model.compute_dist_between_examples x.point y.point
        (v, hash_insert h (x.id, y.id) v)
    let min1 :=
      match min_dist with
      | none => some p.1
      | some mv => if mv = 0 then some p.1
        else if p.1 < mv then some p.1 else min_dist
    _get_dist_from_l_go model x ys p.2 min1

/-- `_get_dist_from_l` (base_learner.py:240), entry point. -/
def _get_dist_from_l (model : Model) (data : List Instance) (x : Instance)
    (dist_hash : PairHash) : Option Int × PairHash :=
  _get_dist_from_l_go model x data dist_hash none

/-! ## Model rebuilding -/

/-- The state of `BaseLearner` relevant to model rebuilding and the
caches: the labeled datasets, the per-space parameters, the model list
(`None` until first built) and the two caches. -/
structure CacheLearner where
  labeled_datasets : List (List Instance)
  params : List svm_parameter
  models : Option (List Model)
  div_hash : PairHash
  dist_hash : PairHash

/-- `rebuild_models` (base_learner.py:204): optionally undersamples
first, then retrains one model per feature space (the external
`svm_model(problem, param)` training call is the collaborator `train`)
and replaces `self.models` wholesale.  Nothing else in the state is
touched — in particular `div_hash` and `dist_hash` are kept as they are. -/
def rebuild_models (train : List Instance → svm_parameter → Model)
    (s : CacheLearner) (undersample_first : Bool) :
    Except String CacheLearner :=
  match (if undersample_first then
      undersample_labeled_datasets s.labeled_datasets none
    else .ok s.labeled_datasets) with
  | .error e => .error e
  | .ok datasets =>
    .ok { s with
      models := some (List.zipWith (fun d param => train d param)
        datasets s.params) }

/-! ## Prediction aggregation -/

/-- How an aggregation call can fail: the source's
`"No models have been initialized."` exception, Python's `IndexError`
(subscripting an empty distinct-votes list), or Python's `ValueError`
(`max` of an empty sequence). -/
inductive PredictError where
  | noModels
  | indexError
  | valueError
deriving DecidableEq, Repr

/-- `_arg_max`'s scan loop (base_learner.py:272): Python iterates
`i in range(len(ls)-1)` comparing `f(ls[i+1])` with the running maximum;
on improvement it sets `return_index = i` (the source stores `i`, not
`i+1`) and updates the maximum.  `b` is the element `ls[i+1]`. -/
def arg_max_go (f : α → Nat) : List α → Nat → Nat → Nat → Nat
  | [], _, return_index, _ => return_index
  | b :: bs, i, return_index, max_val =>
    if f b > max_val then arg_max_go f bs (i + 1) i (f b)
    else arg_max_go f bs (i + 1) return_index max_val

/-- `_arg_max` (base_learner.py:268): `none` models the `IndexError`
raised by `f(ls[0])` on an empty list. -/
def _arg_max (ls : List α) (f : α → Nat) : Option Nat :=
  match ls with
  | [] => none
  | a :: rest => some (arg_max_go f rest 0 0 (f a))

/-- CPython 2 integer hashing: every int hashes to itself except `-1`,
which hashes to `-2` (`-1` is the interpreter's error sentinel). -/
def py2hash (n : Int) : Int := if n = -1 then -2 else n

/-- The hash-table slot of a small int in a fresh CPython 2 set (open
addressing, initial table of 8 slots): the hash taken modulo 8. -/
def py2slot (n : Int) : Nat := (py2hash n % 8).toNat

/-- Stable insertion by ascending slot. -/
def slot_insert (v : Int) : List Int → List Int
  | [] => [v]
  | w :: ws => if py2slot v < py2slot w then v :: w :: ws
    else w :: slot_insert v ws

/-- `list(set(votes))` in CPython 2 (base_learner.py:127): the distinct
vote values, iterated in hash-table slot order.  This model is exact for
value sets whose slots are pairwise distinct and that fit the initial
8-slot table — in particular for the `{-1, +1}` label encoding, where
`+1` (slot 1) always precedes `-1` (slot 6). -/
def py2_set_list (votes : List Int) : List Int :=
  (votes.dedup.foldl (fun acc v => slot_insert v acc) [])

/-- `majority_predict` (base_learner.py:118): one prediction per feature
space; the returned label is the element of the distinct-votes list at
the index chosen by `_arg_max` over vote counts.  `X` holds one feature
vector per space.  Raises `"No models have been initialized."` when
`self.models` is `None` or empty. -/
def majority_predict (models : Option (List Model)) (X : List (List Int)) :
    Except PredictError Int :=
  match models with
  | none => .error .noModels
  | some ms =>
    if ms.length = 0 then .error .noModels
    else
      let votes := List.zipWith (fun (m : Model) x => m.predict x) ms X
      let vote_set := py2_set_list votes
      match _arg_max vote_set (fun v => votes.count v) with
      | none => .error .indexError
      | some i =>
        match vote_set[i]? with
        | some v => .ok v
        | none => .error .indexError

/-- `cautious_predict` (base_learner.py:134): the maximum predicted label
across the feature spaces.  Raises `"No models have been initialized."`
when `self.models` is `None` or empty; `max` of an empty vote list is
Python's `ValueError`. -/
def cautious_predict (models : Option (List Model)) (X : List (List Int)) :
    Except PredictError Int :=
  match models with
  | none => .error .noModels
  | some ms =>
    if ms.length = 0 then .error .noModels
    else
      match List.zipWith (fun (m : Model) x => m.predict x) ms X with
      | [] => .error .valueError
      | v :: vs => .ok (vs.foldl max v)

/-! ## Concrete fixtures used by witnesses and counterexamples -/

/-- A concrete instance with ground-truth and working label `l`. -/
def mkInst (i : Nat) (l : Int) : Instance := ⟨i, l, l, false, [(i : Int)]⟩

/-- A model predicting the constant label `v`. -/
def modelConst (v : Int) : Model := ⟨fun _ => v, fun _ _ => 0, fun _ _ => 0⟩

/-- A candidate example for the cache scenario. -/
def xC : Instance := ⟨0, 1, 1, false, [1, 0]⟩

/-- A reference example for the cache scenario. -/
def yC : Instance := ⟨1, -1, -1, false, [0, 1]⟩

/-- The model that populated the caches (cosine 5, distance 3). -/
def oldModel : Model := ⟨fun _ => 1, fun _ _ => 5, fun _ _ => 3⟩

/-- The model produced by retraining (cosine 7, distance 4). -/
def newModel : Model := ⟨fun _ => 1, fun _ _ => 7, fun _ _ => 4⟩

/-- A learner whose caches were filled while `oldModel` was current:
`div_hash` holds the value `_compute_cos` cached for `(xC, yC)` under
`oldModel`, and `dist_hash` holds `oldModel`'s distance for the pair. -/
def learnerC2 : CacheLearner :=
  { labeled_datasets := [[xC, yC]]
    params := [⟨⟩]
    models := some [oldModel]
    div_hash := (_compute_cos oldModel xC yC []).2
    dist_hash := [((0, 1), 3)] }

/-- All datasets of the list hold the same identifier set (stated as
mutual inclusion of the id lists, which keeps it decidable). -/
abbrev sameIdSets (dss : List (List Instance)) : Prop :=
  ∀ d1 ∈ dss, ∀ d2 ∈ dss, ∀ a ∈ d1.map Instance.id, a ∈ d2.map Instance.id

/-- The spec's lockstep invariant: for all feature-space pairs the
identifier sets of the unlabeled partitions agree, and likewise for the
labeled partitions. -/
abbrev lockstep (s : LearnerState) : Prop :=
  sameIdSets s.unlabeled_datasets ∧ sameIdSets s.labeled_datasets

/-- The partition lists have one labeled dataset per unlabeled dataset,
as established by the constructor. -/
abbrev lenAligned (s : LearnerState) : Prop :=
  s.unlabeled_datasets.length = s.labeled_datasets.length

/-- One application of a partition-mutating operation of `BaseLearner`:
`label_instances_in_all_datasets`, `label_all_data`, `unlabel_instances`,
`pick_balanced_initial_training_set`, or a whole `active_learn` run (with
an arbitrary query oracle). -/
inductive LStep : LearnerState → LearnerState → Prop where
  | label_instances (s : LearnerState) (inst_ids : List Nat) :
      LStep s (label_instances_in_all_datasets s inst_ids)
  | label_all (s : LearnerState) : LStep s (label_all_data s)
  | unlabel (s : LearnerState) (inst_ids : List Nat) :
      LStep s (unlabel_instances s inst_ids)
  | pick_balanced (s : LearnerState) (k : Nat) :
      LStep s (pick_balanced_initial_training_set s k).1
  | active (s : LearnerState) (query : Nat → List Nat) (N b : Nat)
      (hb : 0 < b) (flag : Bool) :
      LStep s (active_learn query N b hb flag s).1

/-- Reachability by the partition-mutating operations. -/
def ReachableLearner (init s : LearnerState) : Prop :=
  Relation.ReflTransGen LStep init s

/-- A two-feature-space learner whose spaces hold the same identifier
sets. -/
def learnerC6 : LearnerState :=
  ⟨[[mkInst 0 1, mkInst 1 (-1)], [mkInst 0 1, mkInst 1 (-1)]], [[], []]⟩

/-- A one-feature-space learner with four unlabeled instances. -/
def learnerC1 : LearnerState :=
  ⟨[[mkInst 0 1, mkInst 1 1, mkInst 2 (-1), mkInst 3 (-1)]], [[]]⟩

/-- A query oracle returning two fresh identifiers per invocation. -/
def queryC1 : Nat → List Nat := fun j => [2 * j, 2 * j + 1]

end CuriousSnake

namespace CuriousSnake

/-! ## Helper lemmas -/

theorem map_filter_comp (f : α → β) (p : β → Bool) (l : List α) :
    (l.filter (fun a => p (f a))).map f = (l.map f).filter p := by
  induction l with
  | nil => rfl
  | cons a l ih => by_cases h : p (f a) <;> simp [List.filter_cons, h, ih]

theorem length_filter_mem {u : List Instance} {ids : List Nat}
    (h1 : (u.map Instance.id).Nodup) (h2 : ids.Nodup)
    (h3 : ∀ a ∈ ids, a ∈ u.map Instance.id) :
    (u.filter (fun x => decide (x.id ∈ ids))).length = ids.length := by
  have hmapf : (u.filter (fun x => decide (x.id ∈ ids))).map Instance.id
      = (u.map Instance.id).filter (fun a => decide (a ∈ ids)) :=
    map_filter_comp Instance.id (fun a => decide (a ∈ ids)) u
  have hlen : (u.filter (fun x => decide (x.id ∈ ids))).length
      = ((u.map Instance.id).filter (fun a => decide (a ∈ ids))).length := by
    rw [← hmapf, List.length_map]
  rw [hlen]
  have hnd : ((u.map Instance.id).filter (fun a => decide (a ∈ ids))).Nodup :=
    h1.filter _
  refine List.Perm.length_eq ((List.perm_ext_iff_of_nodup hnd h2).mpr ?_)
  intro a
  simp only [List.mem_filter, decide_eq_true_eq]
  exact ⟨fun h => h.2, fun h => ⟨h3 a h, h⟩⟩

theorem length_filter_not_mem {u : List Instance} {ids : List Nat}
    (h1 : (u.map Instance.id).Nodup) (h2 : ids.Nodup)
    (h3 : ∀ a ∈ ids, a ∈ u.map Instance.id) :
    (u.filter (fun x => decide (x.id ∉ ids))).length = u.length - ids.length := by
  have hsplit := List.length_eq_length_filter_add
    (l := u) (fun x => decide (x.id ∈ ids))
  have hneg : (u.filter (fun x => !(decide (x.id ∈ ids))))
      = u.filter (fun x => decide (x.id ∉ ids)) := by
    simp
  rw [hneg] at hsplit
  rw [length_filter_mem h1 h2 h3] at hsplit
  omega

theorem zipApply_eq_zipWith (f : α → β → α × β) :
    ∀ (as : List α) (bs : List β), as.length = bs.length →
    zipApply f as bs = (List.zipWith (fun a b => (f a b).1) as bs,
      List.zipWith (fun a b => (f a b).2) as bs) := by
  intro as
  induction as with
  | nil =>
    intro bs h
    cases bs with
    | nil => rfl
    | cons b bs => simp at h
  | cons a as ih =>
    intro bs h
    cases bs with
    | nil => simp at h
    | cons b bs =>
      simp only [List.length_cons, Nat.add_right_cancel_iff] at h
      simp [zipApply, List.zipWith, ih bs h]

theorem zipWith_ignore_right (g : α → γ) :
    ∀ (as : List α) (bs : List β), as.length = bs.length →
    List.zipWith (fun a _ => g a) as bs = as.map g := by
  intro as
  induction as with
  | nil => intro bs _; rfl
  | cons a as ih =>
    intro bs h
    cases bs with
    | nil => simp at h
    | cons b bs =>
      simp only [List.length_cons, Nat.add_right_cancel_iff] at h
      simp [List.zipWith, ih bs h]

theorem zipWith_ignore_left (g : β → γ) :
    ∀ (as : List α) (bs : List β), as.length = bs.length →
    List.zipWith (fun _ b => g b) as bs = bs.map g := by
  intro as
  induction as with
  | nil =>
    intro bs h
    cases bs with
    | nil => rfl
    | cons b bs => simp at h
  | cons a as ih =>
    intro bs h
    cases bs with
    | nil => simp at h
    | cons b bs =>
      simp only [List.length_cons, Nat.add_right_cancel_iff] at h
      simp [List.zipWith, ih bs h]

theorem mem_zipWith {f : α → β → γ} :
    ∀ {as : List α} {bs : List β} {c : γ}, c ∈ List.zipWith f as bs →
    ∃ a ∈ as, ∃ b ∈ bs, c = f a b := by
  intro as
  induction as with
  | nil => intro bs c h; simp at h
  | cons a as ih =>
    intro bs c h
    cases bs with
    | nil => simp at h
    | cons b bs =>
      simp only [List.zipWith, List.mem_cons] at h
      rcases h with h | h
      · exact ⟨a, by simp, b, by simp, h⟩
      · obtain ⟨a', ha', b', hb', hc⟩ := ih h
        exact ⟨a', by simp [ha'], b', by simp [hb'], hc⟩

theorem get_random_unlabeled_ids_go_spec (choice : List Nat → Nat) :
    ∀ (k : Nat) (ids : List Nat), ids.Nodup → k ≤ ids.length →
    ∃ sel, get_random_unlabeled_ids_go choice k ids = .ok sel ∧
      sel.length = k ∧ sel.Nodup ∧ sel ⊆ ids := by
  intro k
  induction k with
  | zero =>
    intro ids _ _
    exact ⟨[], rfl, rfl, List.nodup_nil, by simp⟩
  | succ k ih =>
    intro ids hnd hk
    have hne : ¬ ids.length = 0 := by omega
    have hlt : choice ids % ids.length < ids.length := Nat.mod_lt _ (by omega)
    have hcmem : ids.getD (choice ids % ids.length) 0 ∈ ids := by
      rw [List.getD_eq_getElem ids 0 hlt]
      exact List.getElem_mem hlt
    obtain ⟨sel, hgo, hsl, hsn, hss⟩ :=
      ih (ids.erase (ids.getD (choice ids % ids.length) 0)) (hnd.erase _)
        (by rw [List.length_erase_of_mem hcmem]; omega)
    refine ⟨ids.getD (choice ids % ids.length) 0 :: sel, ?_, by simp [hsl], ?_, ?_⟩
    · simp only [get_random_unlabeled_ids_go, hne, if_false, hgo, Except.map]
    · exact List.nodup_cons.mpr
        ⟨fun hmem => ((hnd.mem_erase_iff).mp (hss hmem)).1 rfl, hsn⟩
    · intro a ha
      rcases List.mem_cons.mp ha with h | h
      · exact h ▸ hcmem
      · exact ((hnd.mem_erase_iff).mp (hss h)).2

theorem zipWith_congr_mem {f g : α → β → γ} :
    ∀ (as : List α) (bs : List β),
    (∀ a ∈ as, ∀ b ∈ bs, f a b = g a b) →
    List.zipWith f as bs = List.zipWith g as bs := by
  intro as
  induction as with
  | nil => intro bs _; rfl
  | cons a as ih =>
    intro bs h
    cases bs with
    | nil => rfl
    | cons b bs =>
      simp only [List.zipWith]
      rw [h a (by simp) b (by simp), ih bs
        (fun a' ha' b' hb' => h a' (by simp [ha']) b' (by simp [hb']))]

theorem hash_find_insert_of_some {h : PairHash} {key k' : Nat × Nat}
    {w v : Int} (hf : hash_find h k' = some w) :
    hash_find (hash_insert h key v) k' = some w := by
  induction h with
  | nil => simp [hash_find] at hf
  | cons e h ih =>
    by_cases he : e.1 = k'
    · simpa [hash_insert, hash_find, he] using hf
    · simp only [hash_find, he, if_false] at hf
      simpa [hash_insert, hash_find, he] using ih hf

theorem hash_find_insert_self {h : PairHash} {key : Nat × Nat} {v : Int}
    (hf : hash_find h key = none) :
    hash_find (hash_insert h key v) key = some v := by
  induction h with
  | nil => simp [hash_insert, hash_find]
  | cons e h ih =>
    by_cases he : e.1 = key
    · simp [hash_find, he] at hf
    · simp only [hash_find, he, if_false] at hf
      simpa [hash_insert, hash_find, he] using ih hf

theorem hash_find_none_of_insert_none {h : PairHash} {key k' : Nat × Nat}
    {v : Int} (hf : hash_find (hash_insert h key v) k' = none) :
    hash_find h k' = none := by
  induction h with
  | nil => simp [hash_find]
  | cons e h ih =>
    by_cases he : e.1 = k'
    · simp [hash_insert, hash_find, he] at hf
    · simp only [hash_insert, List.cons_append, hash_find, he, if_false] at hf
      simp only [hash_find, he, if_false]
      exact ih hf

theorem compute_div_persists (m : Model) :
    ∀ (data : List Instance) (x : Instance) (h : PairHash)
      (key : Nat × Nat) (w : Int), hash_find h key = some w →
    hash_find (_compute_div m data x h).2.1 key = some w := by
  intro data
  induction data with
  | nil => intro x h key w hf; simpa [_compute_div] using hf
  | cons y ys ih =>
    intro x h key w hf
    simp only [_compute_div]
    cases hxy : hash_find h (x.id, y.id) with
    | some v => exact ih x h key w hf
    | none => exact ih x _ key w (hash_find_insert_of_some hf)

theorem compute_div_covers (m : Model) :
    ∀ (data : List Instance) (x : Instance) (h : PairHash),
    ∀ y ∈ data, ∃ w,
      hash_find (_compute_div m data x h).2.1 (x.id, y.id) = some w := by
  intro data
  induction data with
  | nil => intro x h y hy; simp at hy
  | cons y0 ys ih =>
    intro x h y hy
    simp only [_compute_div]
    rcases List.mem_cons.mp hy with rfl | hy'
    · cases hxy : hash_find h (x.id, y.id) with
      | some v => exact ⟨v, compute_div_persists m ys x h _ v hxy⟩
      | none =>
        exact ⟨_, compute_div_persists m ys x _ _ _ (hash_find_insert_self hxy)⟩
    · cases hxy : hash_find h (x.id, y0.id) with
      | some v => exact ih x h y hy'
      | none => exact ih x _ y hy'

theorem compute_div_all_hits (m : Model) :
    ∀ (data : List Instance) (x : Instance) (h : PairHash),
    (∀ y ∈ data, ∃ w, hash_find h (x.id, y.id) = some w) →
    _compute_div m data x h =
      ((data.map (fun y => (hash_find h (x.id, y.id)).getD 0)).sum, h, []) := by
  intro data
  induction data with
  | nil => intro x h _; simp [_compute_div]
  | cons y0 ys ih =>
    intro x h hall
    obtain ⟨w, hw⟩ := hall y0 (by simp)
    simp only [_compute_div, hw, ih x h (fun y hy => hall y (by simp [hy])),
      List.map_cons, List.sum_cons, Option.getD_some]

theorem compute_div_sum_eq_final_lookups (m : Model) :
    ∀ (data : List Instance) (x : Instance) (h : PairHash),
    (_compute_div m data x h).1 = (data.map (fun y =>
      (hash_find (_compute_div m data x h).2.1 (x.id, y.id)).getD 0)).sum := by
  intro data
  induction data with
  | nil => intro x h; simp [_compute_div]
  | cons y0 ys ih =>
    intro x h
    simp only [_compute_div]
    cases hxy : hash_find h (x.id, y0.id) with
    | some v =>
      simp only [List.map_cons, List.sum_cons]
      rw [compute_div_persists m ys x h _ v hxy, Option.getD_some, ih x h]
    | none =>
      simp only [List.map_cons, List.sum_cons]
      rw [compute_div_persists m ys x _ _ _
        (hash_find_insert_self hxy), Option.getD_some, ih x _]

theorem compute_div_calls_fresh (m : Model) :
    ∀ (data : List Instance) (x : Instance) (h : PairHash),
    (_compute_div m data x h).2.2.Nodup ∧
    ∀ kk ∈ (_compute_div m data x h).2.2, hash_find h kk = none := by
  intro data
  induction data with
  | nil => intro x h; simp [_compute_div]
  | cons y0 ys ih =>
    intro x h
    simp only [_compute_div]
    cases hxy : hash_find h (x.id, y0.id) with
    | some v => exact ih x h
    | none =>
      obtain ⟨ihnd, ihfresh⟩ := ih x (hash_insert h (x.id, y0.id)
        (m.compute_cos_between_examples x.point y0.point))
      refine ⟨List.nodup_cons.mpr ⟨fun hmem => ?_, ihnd⟩, ?_⟩
      · have := ihfresh _ hmem
        rw [hash_find_insert_self hxy] at this
        exact Option.noConfusion this
      · intro kk hkk
        rcases List.mem_cons.mp hkk with rfl | hkk'
        · exact hxy
        · exact hash_find_none_of_insert_none (ihfresh kk hkk')

theorem ceil_div_step {b d : Nat} (hb : 0 < b) (hd : 0 < d) :
    (d + b - 1) / b = (d - b + b - 1) / b + 1 := by
  rcases le_or_lt b d with h | h
  · have h1 : d - b + b - 1 = d - 1 := by omega
    have h2 : d + b - 1 = (d - 1) + b := by omega
    rw [h1, h2, Nat.add_div_right _ hb]
  · have h1 : d - b = 0 := by omega
    have h2 : d + b - 1 = (d - 1) + b := by omega
    rw [h1, h2, Nat.add_div_right _ hb,
      Nat.div_eq_of_lt (by omega), Nat.div_eq_of_lt (by omega)]

theorem active_learn_go_counts (query : Nat → List Nat) (N b : Nat)
    (hb : 0 < b) (flag : Bool) :
    ∀ (fuel c iter : Nat) (s : LearnerState), N - c ≤ fuel →
    (active_learn_go query N b hb flag s iter c).2.1 = (N - c + b - 1) / b ∧
    (active_learn_go query N b hb flag s iter c).2.2 =
      (if flag then (N - c + b - 1) / b else 0) := by
  intro fuel
  induction fuel with
  | zero =>
    intro c iter s hf
    have hc : ¬ c < N := by omega
    have hz : N - c = 0 := by omega
    rw [active_learn_go]
    simp [hc, hz, Nat.div_eq_of_lt (show b - 1 < b by omega)]
  | succ fuel ih =>
    intro c iter s hf
    by_cases hc : c < N
    · have hd : 0 < N - c := by omega
      have hrw : N - (c + b) = N - c - b := by omega
      obtain ⟨ih1, ih2⟩ := ih (c + b) (iter + 1)
        (if query iter = [] then s
          else label_instances_in_all_datasets s (query iter)) (by omega)
      rw [active_learn_go]
      simp only [hc, if_true, ih1, ih2, hrw]
      refine ⟨(ceil_div_step hb hd).symm, ?_⟩
      cases flag <;> simp [(ceil_div_step hb hd).symm]
    · have hz : N - c = 0 := by omega
      rw [active_learn_go]
      simp [hc, hz, Nat.div_eq_of_lt (show b - 1 < b by omega)]

theorem filter_length_pair_transfer {d0 d : List Instance}
    (hpair : d.map (fun x => (x.id, x.lbl)) = d0.map (fun x => (x.id, x.lbl)))
    (p : Nat → Int → Bool) :
    (d.filter (fun x => p x.id x.lbl)).length
      = (d0.filter (fun x => p x.id x.lbl)).length := by
  have h1 : ∀ (l : List Instance), (l.filter (fun x => p x.id x.lbl)).length
      = (l.map (fun x => (x.id, x.lbl))).countP (fun q => p q.1 q.2) := by
    intro l
    rw [List.countP_map, List.countP_eq_length_filter]
    rfl
  rw [h1, h1, hpair]

theorem map_id_of_pair_eq {d0 d : List Instance}
    (hpair : d.map (fun x => (x.id, x.lbl)) =
      d0.map (fun x => (x.id, x.lbl))) :
    d.map Instance.id = d0.map Instance.id := by
  have h := congrArg (List.map Prod.fst) hpair
  rw [List.map_map, List.map_map] at h
  exact h

theorem filter_not_mem_append_ids (t d : List Instance)
    (hnd : ((t ++ d).map Instance.id).Nodup) :
    (t ++ d).filter (fun x => decide (x.id ∉ t.map Instance.id)) = d := by
  have hdisj2 : List.Disjoint (t.map Instance.id) (d.map Instance.id) := by
    apply List.disjoint_of_nodup_append
    rw [← List.map_append]
    exact hnd
  rw [List.filter_append]
  have htake : t.filter
      (fun x => decide (x.id ∉ t.map Instance.id)) = [] := by
    apply List.filter_eq_nil_iff.mpr
    intro x hx
    simp only [decide_eq_true_eq, Decidable.not_not]
    exact List.mem_map_of_mem Instance.id hx
  have hdrop : d.filter
      (fun x => decide (x.id ∉ t.map Instance.id)) = d := by
    apply List.filter_eq_self.mpr
    intro x hx
    simp only [decide_eq_true_eq]
    intro hcontra
    exact (hdisj2 hcontra) (List.mem_map_of_mem Instance.id hx)
  rw [htake, hdrop, List.nil_append]

theorem majority_after_removal (d0 : List Instance)
    (hnd : (d0.map Instance.id).Nodup) (k : Nat) :
    (d0.filter (fun x =>
        decide (x.id ∉ ((d0.filter (fun y => decide (y.lbl = -1))).take
          k).map Instance.id) && decide (x.lbl = -1))).length
      = number_of_majority_examples d0 - k := by
  have hndpm : ((d0.filter (fun y => decide (y.lbl = -1))).map
      Instance.id).Nodup :=
    hnd.sublist ((List.filter_sublist d0).map Instance.id)
  have hsplit := List.take_append_drop k
    (d0.filter (fun y => decide (y.lbl = -1)))
  have hlem := filter_not_mem_append_ids
    ((d0.filter (fun y => decide (y.lbl = -1))).take k)
    ((d0.filter (fun y => decide (y.lbl = -1))).drop k)
    (by rw [hsplit]; exact hndpm)
  rw [hsplit] at hlem
  have hcomm : d0.filter (fun x =>
      decide (x.id ∉ ((d0.filter (fun y => decide (y.lbl = -1))).take
        k).map Instance.id) && decide (x.lbl = -1))
      = (d0.filter (fun y => decide (y.lbl = -1))).filter (fun x =>
        decide (x.id ∉ ((d0.filter (fun y => decide (y.lbl = -1))).take
          k).map Instance.id)) := by
    rw [List.filter_filter]
  rw [hcomm, hlem, List.length_drop]
  rfl

theorem minority_unaffected_by_removal (d0 : List Instance)
    (hnd : (d0.map Instance.id).Nodup) (k : Nat) :
    (d0.filter (fun x =>
        decide (x.id ∉ ((d0.filter (fun y => decide (y.lbl = -1))).take
          k).map Instance.id) && decide (x.lbl = 1))).length
      = number_of_minority_examples d0 := by
  have hcong : d0.filter (fun x =>
      decide (x.id ∉ ((d0.filter (fun y => decide (y.lbl = -1))).take
        k).map Instance.id) && decide (x.lbl = 1))
      = d0.filter (fun x => decide (x.lbl = 1)) := by
    apply List.filter_congr
    intro x hx
    by_cases hl : x.lbl = 1
    · have hnotin : x.id ∉ ((d0.filter (fun y =>
          decide (y.lbl = -1))).take k).map Instance.id := by
        intro hcontra
        obtain ⟨y, hy, hyx⟩ := List.mem_map.mp hcontra
        have hy2 := List.take_subset k _ hy
        have hy3 := List.mem_filter.mp hy2
        have hxy := List.inj_on_of_nodup_map hnd hx hy3.1 hyx.symm
        have hylbl : y.lbl = -1 := by simpa using hy3.2
        rw [← hxy] at hylbl
        rw [hl] at hylbl
        exact absurd hylbl (by decide)
      rw [decide_eq_true hnotin, decide_eq_true hl, Bool.true_and]
    · rw [decide_eq_false hl, Bool.and_false]
  rw [hcong]
  rfl

theorem undersample_space_counts (d0 d : List Instance)
    (hnd : (d0.map Instance.id).Nodup)
    (hpair : d.map (fun x => (x.id, x.lbl)) =
      d0.map (fun x => (x.id, x.lbl)))
    (k : Nat) (hk : k ≤ number_of_majority_examples d0) :
    number_of_majority_examples ((remove_instances d
        (((d0.filter (fun y => decide (y.lbl = -1))).take k).map
          Instance.id)).2)
      = number_of_majority_examples d0 - k ∧
    number_of_minority_examples ((remove_instances d
        (((d0.filter (fun y => decide (y.lbl = -1))).take k).map
          Instance.id)).2)
      = number_of_minority_examples d0 ∧
    ((remove_instances d
        (((d0.filter (fun y => decide (y.lbl = -1))).take k).map
          Instance.id)).2).length = d0.length - k := by
  have hdid : d.map Instance.id = d0.map Instance.id :=
    map_id_of_pair_eq hpair
  have hdlen : d.length = d0.length := by
    have h := congrArg List.length hpair
    simpa using h
  have hridnd : ((((d0.filter (fun y => decide (y.lbl = -1))).take
      k).map Instance.id)).Nodup := by
    apply hnd.sublist
    exact ((List.take_sublist k _).trans (List.filter_sublist d0)).map
      Instance.id
  have hridsub : ∀ a ∈ ((d0.filter (fun y => decide (y.lbl = -1))).take
      k).map Instance.id, a ∈ d.map Instance.id := by
    intro a ha
    rw [hdid]
    obtain ⟨y, hy, hya⟩ := List.mem_map.mp ha
    have hy2 := (List.mem_filter.mp (List.take_subset k _ hy)).1
    exact hya ▸ List.mem_map_of_mem Instance.id hy2
  have hridlen : (((d0.filter (fun y => decide (y.lbl = -1))).take
      k).map Instance.id).length = k := by
    rw [List.length_map, List.length_take]
    exact min_eq_left hk
  refine ⟨?_, ?_, ?_⟩
  · show ((d.filter (fun x => decide (x.id ∉ _))).filter
      (fun x => decide (x.lbl = -1))).length = _
    rw [List.filter_filter]
    have hcg : d.filter (fun a => decide (a.lbl = -1) &&
        decide (a.id ∉ ((d0.filter (fun y => decide (y.lbl = -1))).take
          k).map Instance.id))
        = d.filter (fun a =>
          decide (a.id ∉ ((d0.filter (fun y => decide (y.lbl = -1))).take
            k).map Instance.id) && decide (a.lbl = -1)) :=
      List.filter_congr (fun x _ => Bool.and_comm _ _)
    rw [hcg,
      filter_length_pair_transfer hpair (fun i l =>
        decide (i ∉ ((d0.filter (fun y => decide (y.lbl = -1))).take
          k).map Instance.id) && decide (l = -1)),
      majority_after_removal d0 hnd k]
  · show ((d.filter (fun x => decide (x.id ∉ _))).filter
      (fun x => decide (x.lbl = 1))).length = _
    rw [List.filter_filter]
    have hcg : d.filter (fun a => decide (a.lbl = 1) &&
        decide (a.id ∉ ((d0.filter (fun y => decide (y.lbl = -1))).take
          k).map Instance.id))
        = d.filter (fun a =>
          decide (a.id ∉ ((d0.filter (fun y => decide (y.lbl = -1))).take
            k).map Instance.id) && decide (a.lbl = 1)) :=
      List.filter_congr (fun x _ => Bool.and_comm _ _)
    rw [hcg,
      filter_length_pair_transfer hpair (fun i l =>
        decide (i ∉ ((d0.filter (fun y => decide (y.lbl = -1))).take
          k).map Instance.id) && decide (l = 1)),
      minority_unaffected_by_removal d0 hnd k]
  · show (d.filter (fun x => decide (x.id ∉ _))).length = _
    rw [length_filter_not_mem (hdid ▸ hnd) hridnd hridsub, hridlen, hdlen]

theorem label_instances_eq (s : LearnerState) (ids : List Nat)
    (hlen : s.unlabeled_datasets.length = s.labeled_datasets.length) :
    label_instances_in_all_datasets s ids =
      ⟨s.unlabeled_datasets.map
        (fun u => u.filter (fun x => decide (x.id ∉ ids))),
       List.zipWith (fun u l => l ++ u.filter (fun x => decide (x.id ∈ ids)))
         s.unlabeled_datasets s.labeled_datasets⟩ := by
  unfold label_instances_in_all_datasets
  rw [zipApply_eq_zipWith _ _ _ hlen]
  simp only [remove_instances, add_instances]
  congr 1
  exact zipWith_ignore_right _ _ _ hlen

theorem label_step_lengths (s : LearnerState) (ids : List Nat)
    (hlen : s.unlabeled_datasets.length = s.labeled_datasets.length)
    (hnd : ∀ u ∈ s.unlabeled_datasets, (u.map Instance.id).Nodup)
    (hidnd : ids.Nodup)
    (hsub : ∀ u ∈ s.unlabeled_datasets, ∀ a ∈ ids, a ∈ u.map Instance.id) :
    (label_instances_in_all_datasets s ids).labeled_datasets.map List.length
      = s.labeled_datasets.map (fun l => l.length + ids.length) ∧
    (label_instances_in_all_datasets s ids).unlabeled_datasets.map List.length
      = s.unlabeled_datasets.map (fun u => u.length - ids.length) := by
  rw [label_instances_eq s ids hlen]
  constructor
  · rw [List.map_zipWith]
    have hcg : List.zipWith
        (fun u l => (l ++ u.filter (fun x => decide (x.id ∈ ids))).length)
        s.unlabeled_datasets s.labeled_datasets
        = List.zipWith (fun _ l => l.length + ids.length)
          s.unlabeled_datasets s.labeled_datasets := by
      apply zipWith_congr_mem
      intro u hu l _
      rw [List.length_append, length_filter_mem (hnd u hu) hidnd (hsub u hu)]
    rw [hcg, zipWith_ignore_left _ _ _ hlen]
  · rw [List.map_map]
    apply List.map_eq_map_iff.mpr
    intro u hu
    exact length_filter_not_mem (hnd u hu) hidnd (hsub u hu)

theorem label_step_structure (s : LearnerState) (ids : List Nat)
    (hlen : s.unlabeled_datasets.length = s.labeled_datasets.length) :
    (label_instances_in_all_datasets s ids).unlabeled_datasets.length
      = s.unlabeled_datasets.length ∧
    (label_instances_in_all_datasets s ids).labeled_datasets.length
      = s.labeled_datasets.length ∧
    ∀ u' ∈ (label_instances_in_all_datasets s ids).unlabeled_datasets,
      ∃ u ∈ s.unlabeled_datasets,
        u' = u.filter (fun x => decide (x.id ∉ ids)) := by
  rw [label_instances_eq s ids hlen]
  refine ⟨by simp, by simp [List.length_zipWith]; omega, ?_⟩
  intro u' hu'
  obtain ⟨u, hu, rfl⟩ := List.mem_map.mp hu'
  exact ⟨u, hu, rfl⟩

theorem active_learn_go_partition_growth (query : Nat → List Nat)
    (N b : Nat) (hb : 0 < b) (flag : Bool) :
    ∀ (fuel c iter : Nat) (s : LearnerState), N - c ≤ fuel →
    s.unlabeled_datasets.length = s.labeled_datasets.length →
    (∀ u ∈ s.unlabeled_datasets, (u.map Instance.id).Nodup) →
    (∀ j, iter ≤ j → j < iter + (N - c + b - 1) / b →
      (query j).length = b ∧ (query j).Nodup ∧
      (∀ u ∈ s.unlabeled_datasets, ∀ a ∈ query j, a ∈ u.map Instance.id)) →
    (∀ j k, iter ≤ j → j < k → k < iter + (N - c + b - 1) / b →
      ∀ a ∈ query j, a ∉ query k) →
    (active_learn_go query N b hb flag s iter c).1.labeled_datasets.map
        List.length =
      s.labeled_datasets.map
        (fun l => l.length + ((N - c + b - 1) / b) * b) ∧
    (active_learn_go query N b hb flag s iter c).1.unlabeled_datasets.map
        List.length =
      s.unlabeled_datasets.map
        (fun u => u.length - ((N - c + b - 1) / b) * b) := by
  intro fuel
  induction fuel with
  | zero =>
    intro c iter s hf _ _ _ _
    have hc : ¬ c < N := by omega
    have hz : N - c = 0 := by omega
    rw [active_learn_go]
    simp [hc, hz, Nat.div_eq_of_lt (show b - 1 < b by omega)]
  | succ fuel ih =>
    intro c iter s hf hlen hnd hq hdisj
    by_cases hc : c < N
    · have hd : 0 < N - c := by omega
      have hrw : N - (c + b) = N - c - b := by omega
      have hstep : (N - c + b - 1) / b = (N - (c + b) + b - 1) / b + 1 := by
        rw [hrw]; exact ceil_div_step hb hd
      have hq0 := hq iter (le_refl iter)
        (by rw [hstep]; generalize (N - (c + b) + b - 1) / b = t; omega)
      have hqne : ¬ query iter = [] := by
        intro hnil
        rw [hnil] at hq0
        simp at hq0
        omega
      have hs1len := label_step_structure s (query iter) hlen
      have hs1 := label_step_lengths s (query iter) hlen hnd hq0.2.1
        (fun u hu => hq0.2.2 u hu)
      have hmain := ih (c + b) (iter + 1)
        (label_instances_in_all_datasets s (query iter)) (by omega)
        (by rw [hs1len.1, hs1len.2.1]; exact hlen)
        (by
          intro u' hu'
          obtain ⟨u, hu, rfl⟩ := hs1len.2.2 u' hu'
          have hsub2 : List.Sublist
              ((u.filter (fun x => decide (x.id ∉ query iter))).map
                Instance.id) (u.map Instance.id) :=
            (List.filter_sublist u).map Instance.id
          exact (hnd u hu).sublist hsub2)
        (by
          intro j hj1 hj2
          have hj2' : j < iter + (N - c + b - 1) / b := by
            rw [hstep]; omega
          have hqj := hq j (by omega) hj2'
          refine ⟨hqj.1, hqj.2.1, ?_⟩
          intro u' hu' a ha
          obtain ⟨u, hu, rfl⟩ := hs1len.2.2 u' hu'
          have hmem : a ∈ u.map Instance.id := hqj.2.2 u hu a ha
          have hnotin : a ∉ query iter := by
            intro hcontra
            exact hdisj iter j (le_refl iter) (by omega) hj2' a hcontra ha
          rw [map_filter_comp Instance.id
            (fun i => decide (i ∉ query iter)) u]
          exact List.mem_filter.mpr ⟨hmem, by simpa using hnotin⟩)
        (by
          intro j k hj hjk hk
          exact hdisj j k (by omega) hjk (by rw [hstep]; omega))
      rw [active_learn_go, if_pos hc]
      simp only [if_neg hqne]
      rw [hstep]
      constructor
      · rw [hmain.1]
        have h1 : (label_instances_in_all_datasets s
              (query iter)).labeled_datasets.map
              (fun l => l.length + ((N - (c + b) + b - 1) / b) * b)
            = ((label_instances_in_all_datasets s
              (query iter)).labeled_datasets.map List.length).map
              (fun n => n + ((N - (c + b) + b - 1) / b) * b) := by
          rw [List.map_map]; rfl
        rw [h1, hs1.1, hq0.1, List.map_map]
        apply List.map_eq_map_iff.mpr
        intro l _
        simp only [Function.comp]
        ring
      · rw [hmain.2]
        have h2 : (label_instances_in_all_datasets s
              (query iter)).unlabeled_datasets.map
              (fun u => u.length - ((N - (c + b) + b - 1) / b) * b)
            = ((label_instances_in_all_datasets s
              (query iter)).unlabeled_datasets.map List.length).map
              (fun n => n - ((N - (c + b) + b - 1) / b) * b) := by
          rw [List.map_map]; rfl
        rw [h2, hs1.2, hq0.1, List.map_map]
        apply List.map_eq_map_iff.mpr
        intro u _
        simp only [Function.comp]
        rw [Nat.succ_mul]
        generalize ((N - (c + b) + b - 1) / b) * b = P
        omega
    · have hz : N - c = 0 := by omega
      rw [active_learn_go]
      simp [hc, hz, Nat.div_eq_of_lt (show b - 1 < b by omega)]

theorem mem_map_id_filter_pred (p : Nat → Bool) (u : List Instance)
    (a : Nat) :
    a ∈ (u.filter (fun x => p x.id)).map Instance.id ↔
      a ∈ u.map Instance.id ∧ p a = true := by
  constructor
  · intro hmem
    obtain ⟨x, hx, rfl⟩ := List.mem_map.mp hmem
    have h := List.mem_filter.mp hx
    exact ⟨List.mem_map_of_mem _ h.1, h.2⟩
  · rintro ⟨hmem, hp⟩
    obtain ⟨x, hx, rfl⟩ := List.mem_map.mp hmem
    exact List.mem_map_of_mem _ (List.mem_filter.mpr ⟨hx, hp⟩)

theorem restore_go_map_id (t : Nat → Bool) :
    ∀ (i : Nat) (l : List Instance),
    (restore_go t i l).map Instance.id = l.map Instance.id := by
  intro i l
  induction l generalizing i with
  | nil => rfl
  | cons x xs ih =>
    simp only [restore_go, List.map_cons, ih]
    by_cases hti : t i <;> simp [hti]

theorem applyFirst_length (f : α → α) :
    ∀ (n : Nat) (l : List α), (applyFirst f n l).length = l.length := by
  intro n
  induction n with
  | zero => intro l; rfl
  | succ n ih =>
    intro l
    cases l with
    | nil => rfl
    | cons a l => simp [applyFirst, ih]

theorem applyFirst_mem (f : α → α) :
    ∀ (n : Nat) (l : List α) (d : α), d ∈ applyFirst f n l →
    (∃ d0 ∈ l, d = f d0) ∨ d ∈ l := by
  intro n
  induction n with
  | zero => intro l d hd; exact Or.inr hd
  | succ n ih =>
    intro l d hd
    cases l with
    | nil => simp [applyFirst] at hd
    | cons a l =>
      simp only [applyFirst, List.mem_cons] at hd
      rcases hd with rfl | hd
      · exact Or.inl ⟨a, by simp, rfl⟩
      · rcases ih l d hd with ⟨d0, hd0, rfl⟩ | hmem
        · exact Or.inl ⟨d0, by simp [hd0], rfl⟩
        · exact Or.inr (by simp [hmem])

theorem zipWith_flip (f : α → β → γ) :
    ∀ (as : List α) (bs : List β),
    List.zipWith f as bs = List.zipWith (fun b a => f a b) bs as := by
  intro as
  induction as with
  | nil => intro bs; cases bs <;> rfl
  | cons a as ih =>
    intro bs
    cases bs with
    | nil => rfl
    | cons b bs => simp [List.zipWith, ih]

theorem sameIdSets_filter (dss : List (List Instance)) (p : Nat → Bool)
    (h : sameIdSets dss) :
    sameIdSets (dss.map (fun u => u.filter (fun x => p x.id))) := by
  intro d1 hd1 d2 hd2 a ha
  obtain ⟨u1, hu1, rfl⟩ := List.mem_map.mp hd1
  obtain ⟨u2, hu2, rfl⟩ := List.mem_map.mp hd2
  obtain ⟨hmem, hp⟩ := (mem_map_id_filter_pred p u1 a).mp ha
  exact (mem_map_id_filter_pred p u2 a).mpr ⟨h u1 hu1 u2 hu2 a hmem, hp⟩

theorem sameIdSets_append_filter (A B : List (List Instance))
    (p : Nat → Bool) (hA : sameIdSets A) (hB : sameIdSets B) :
    sameIdSets (List.zipWith
      (fun a b => a ++ b.filter (fun x => p x.id)) A B) := by
  intro d1 hd1 d2 hd2 c hc
  obtain ⟨a1, ha1, b1, hb1, rfl⟩ := mem_zipWith hd1
  obtain ⟨a2, ha2, b2, hb2, rfl⟩ := mem_zipWith hd2
  rw [List.map_append, List.mem_append] at hc
  rw [List.map_append, List.mem_append]
  rcases hc with hc | hc
  · exact Or.inl (hA a1 ha1 a2 ha2 c hc)
  · obtain ⟨hmem, hp⟩ := (mem_map_id_filter_pred p b1 c).mp hc
    exact Or.inr ((mem_map_id_filter_pred p b2 c).mpr
      ⟨hB b1 hb1 b2 hb2 c hmem, hp⟩)

theorem label_preserves_inv (s : LearnerState) (ids : List Nat)
    (h : lenAligned s ∧ lockstep s) :
    lenAligned (label_instances_in_all_datasets s ids) ∧
      lockstep (label_instances_in_all_datasets s ids) := by
  obtain ⟨hlen, hun, hlab⟩ := h
  rw [label_instances_eq s ids hlen]
  refine ⟨?_, ?_, ?_⟩
  · show (s.unlabeled_datasets.map _).length = (List.zipWith _ _ _).length
    rw [List.length_map, List.length_zipWith]
    omega
  · exact sameIdSets_filter s.unlabeled_datasets
      (fun i => decide (i ∉ ids)) hun
  · show sameIdSets (List.zipWith _ s.unlabeled_datasets
      s.labeled_datasets)
    rw [zipWith_flip]
    exact sameIdSets_append_filter s.labeled_datasets
      s.unlabeled_datasets (fun i => decide (i ∈ ids)) hlab hun

theorem unlabel_shape (s : LearnerState) (ids : List Nat)
    (hlen : lenAligned s) :
    ∃ labeled1 : List (List Instance),
      labeled1.length = s.labeled_datasets.length ∧
      (∀ d ∈ labeled1, ∃ d0 ∈ s.labeled_datasets,
        d.map Instance.id = d0.map Instance.id) ∧
      unlabel_instances s ids =
        ⟨List.zipWith
          (fun u l => u ++ l.filter (fun x => decide (x.id ∈ ids)))
          s.unlabeled_datasets labeled1,
         labeled1.map
          (fun l => l.filter (fun x => decide (x.id ∉ ids)))⟩ := by
  refine ⟨applyFirst (restore_go (fun i =>
      match (s.labeled_datasets.headD [])[i]? with
      | some inst => decide (inst.id ∈ ids)
      | none => false) 0)
    (min s.unlabeled_datasets.length s.labeled_datasets.length)
    s.labeled_datasets, applyFirst_length _ _ _, ?_, ?_⟩
  · intro d hd
    rcases applyFirst_mem _ _ _ _ hd with ⟨d0, hd0, rfl⟩ | hmem
    · exact ⟨d0, hd0, restore_go_map_id _ 0 d0⟩
    · exact ⟨d, hmem, rfl⟩
  · have hlen1 : s.unlabeled_datasets.length
        = (applyFirst (restore_go (fun i =>
          match (s.labeled_datasets.headD [])[i]? with
          | some inst => decide (inst.id ∈ ids)
          | none => false) 0)
        (min s.unlabeled_datasets.length s.labeled_datasets.length)
        s.labeled_datasets).length := by
      rw [applyFirst_length]
      exact hlen
    simp only [unlabel_instances]
    rw [zipApply_eq_zipWith _ _ _ hlen1]
    simp only [remove_instances, add_instances]
    congr 1
    exact zipWith_ignore_left _ _ _ hlen1

theorem unlabel_preserves_inv (s : LearnerState) (ids : List Nat)
    (h : lenAligned s ∧ lockstep s) :
    lenAligned (unlabel_instances s ids) ∧
      lockstep (unlabel_instances s ids) := by
  obtain ⟨hlen, hun, hlab⟩ := h
  obtain ⟨L1, hL1len, hL1mem, heq⟩ := unlabel_shape s ids hlen
  have hL1same : sameIdSets L1 := by
    intro d1 hd1 d2 hd2 a ha
    obtain ⟨o1, ho1, he1⟩ := hL1mem d1 hd1
    obtain ⟨o2, ho2, he2⟩ := hL1mem d2 hd2
    rw [he2]
    rw [he1] at ha
    exact hlab o1 ho1 o2 ho2 a ha
  rw [heq]
  refine ⟨?_, ?_, ?_⟩
  · show (List.zipWith _ _ _).length = (L1.map _).length
    rw [List.length_zipWith, List.length_map]
    omega
  · exact sameIdSets_append_filter s.unlabeled_datasets L1
      (fun i => decide (i ∈ ids)) hun hL1same
  · exact sameIdSets_filter L1 (fun i => decide (i ∉ ids)) hL1same

theorem active_learn_go_preserves_inv (query : Nat → List Nat)
    (N b : Nat) (hb : 0 < b) (flag : Bool) :
    ∀ (fuel c iter : Nat) (s : LearnerState), N - c ≤ fuel →
    lenAligned s ∧ lockstep s →
    lenAligned (active_learn_go query N b hb flag s iter c).1 ∧
      lockstep (active_learn_go query N b hb flag s iter c).1 := by
  intro fuel
  induction fuel with
  | zero =>
    intro c iter s hf h
    have hc : ¬ c < N := by omega
    rw [active_learn_go, if_neg hc]
    exact h
  | succ fuel ih =>
    intro c iter s hf h
    by_cases hc : c < N
    · rw [active_learn_go, if_pos hc]
      have hs1 : lenAligned (if query iter = [] then s
          else label_instances_in_all_datasets s (query iter)) ∧
          lockstep (if query iter = [] then s
          else label_instances_in_all_datasets s (query iter)) := by
        by_cases hq : query iter = []
        · rw [if_pos hq]; exact h
        · rw [if_neg hq]; exact label_preserves_inv s _ h
      exact ih (c + b) (iter + 1) _ (by omega) hs1
    · rw [active_learn_go, if_neg hc]
      exact h

theorem lstep_preserves_inv {s s' : LearnerState} (h : LStep s s')
    (hinv : lenAligned s ∧ lockstep s) :
    lenAligned s' ∧ lockstep s' := by
  cases h with
  | label_instances ids => exact label_preserves_inv s ids hinv
  | label_all => exact label_preserves_inv s _ hinv
  | unlabel ids => exact unlabel_preserves_inv s ids hinv
  | pick_balanced k => exact label_preserves_inv s _ hinv
  | active query N b hb flag =>
    exact active_learn_go_preserves_inv query N b hb flag N 0 0 s
      (by omega) hinv

/-! ## Claim theorems -/

/-- C9: the active-learning loop increments `labeled_so_far` by the batch
size `b` on every iteration regardless of what the query function
returns, so for any query oracle (including ones returning fewer than `b`
identifiers or nothing at all) it performs exactly `ceil(N/b)` selection
iterations and stops. -/
theorem active_learn_iteration_count (query : Nat → List Nat) (N b : Nat)
    (hb : 0 < b) (hN : 0 < N) (flag : Bool) (s : LearnerState) :
    (active_learn query N b hb flag s).2.1 = (N + b - 1) / b := by
  have h0 : (0 : Nat) < N := hN
  have h := (active_learn_go_counts query N b hb flag N 0 0 s (by omega)).1
  simpa [active_learn] using h

/-- C9 witness: a void query strategy (always returning no identifiers)
with `N = 5`, `b = 2` still yields `ceil(5/2) = 3` iterations. -/
theorem active_learn_iteration_count_witness :
    (active_learn (fun _ => []) 5 2 (by decide) false ⟨[[]], [[]]⟩).2.1
      = (5 + 2 - 1) / 2 :=
  active_learn_iteration_count (fun _ => []) 5 2 (by decide) (by decide)
    false ⟨[[]], [[]]⟩

/-- C1: with a query oracle returning exactly `b` distinct, pairwise
disjoint identifiers from the initial unlabeled pool at each invocation
(an unconstrained pool), `active_learn(N, b)` moves exactly
`ceil(N/b) * b` examples from the unlabeled to the labeled partition of
every feature space, and `rebuild_models` is invoked once after the loop
on top of the per-iteration rebuilds — i.e. the total rebuild count is
`(if flag then ceil(N/b) else 0) + 1`, so the final rebuild happens
regardless of the `rebuild_models_at_each_iter` flag. -/
theorem active_learn_budget_and_final_rebuild (query : Nat → List Nat)
    (N b : Nat) (hb : 0 < b) (flag : Bool) (s : LearnerState)
    (hlen : s.unlabeled_datasets.length = s.labeled_datasets.length)
    (hnd : ∀ u ∈ s.unlabeled_datasets, (u.map Instance.id).Nodup)
    (hq : ∀ j < (N + b - 1) / b, (query j).length = b ∧ (query j).Nodup ∧
      ∀ u ∈ s.unlabeled_datasets, ∀ a ∈ query j, a ∈ u.map Instance.id)
    (hdisj : ∀ j < (N + b - 1) / b, ∀ k < (N + b - 1) / b, j < k →
      ∀ a ∈ query j, a ∉ query k) :
    (active_learn query N b hb flag s).1.labeled_datasets.map List.length
      = s.labeled_datasets.map (fun l => l.length + ((N + b - 1) / b) * b) ∧
    (active_learn query N b hb flag s).1.unlabeled_datasets.map List.length
      = s.unlabeled_datasets.map
        (fun u => u.length - ((N + b - 1) / b) * b) ∧
    (active_learn query N b hb flag s).2.2
      = (if flag then (N + b - 1) / b else 0) + 1 := by
  have hgrow := active_learn_go_partition_growth query N b hb flag N 0 0 s
    (by omega) hlen hnd
    (by
      intro j hj1 hj2
      exact hq j (by simpa using hj2))
    (by
      intro j k hj hjk hk
      have hk' : k < (N + b - 1) / b := by simpa using hk
      exact hdisj j (lt_trans hjk hk') k hk' hjk)
  have hcnt := (active_learn_go_counts query N b hb flag N 0 0 s (by omega)).2
  refine ⟨?_, ?_, ?_⟩
  · simpa [active_learn] using hgrow.1
  · simpa [active_learn] using hgrow.2
  · simp only [active_learn]
    rw [hcnt]
    simp

/-- C1 witness: `active_learn(3, batch=2)` on a four-instance pool with a
query oracle handing out two fresh ids per call labels
`ceil(3/2) * 2 = 4` examples and performs exactly one (final) rebuild
with per-iteration rebuilding disabled. -/
theorem active_learn_budget_and_final_rebuild_witness :
    (active_learn queryC1 3 2 (by decide) false
        learnerC1).1.labeled_datasets.map List.length
      = learnerC1.labeled_datasets.map
        (fun l => l.length + ((3 + 2 - 1) / 2) * 2) ∧
    (active_learn queryC1 3 2 (by decide) false
        learnerC1).1.unlabeled_datasets.map List.length
      = learnerC1.unlabeled_datasets.map
        (fun u => u.length - ((3 + 2 - 1) / 2) * 2) ∧
    (active_learn queryC1 3 2 (by decide) false learnerC1).2.2
      = (if false then (3 + 2 - 1) / 2 else 0) + 1 :=
  active_learn_budget_and_final_rebuild queryC1 3 2 (by decide) false
    learnerC1 (by decide) (by decide)
    (by intro j hj; interval_cases j <;> decide)
    (by
      intro j hj k hk hjk
      interval_cases j <;> interval_cases k <;>
        first
        | exact absurd hjk (by decide)
        | decide)

/-- C6: from any initial state whose feature spaces hold the same
identifier sets (and one labeled partition per unlabeled partition, as
the constructor establishes), every state reachable by the
partition-mutating operations — `label_instances_in_all_datasets`,
`label_all_data`, `unlabel_instances`, `pick_balanced_initial_training_set`
and `active_learn` — satisfies the lockstep invariant: all labeled
partitions share one identifier set and all unlabeled partitions share
one identifier set. -/
theorem lockstep_invariant_reachable (init s : LearnerState)
    (hlen : lenAligned init) (hinit : lockstep init)
    (hreach : ReachableLearner init s) : lockstep s := by
  have h : lenAligned s ∧ lockstep s := by
    induction hreach with
    | refl => exact ⟨hlen, hinit⟩
    | tail _hab hbc ih => exact lstep_preserves_inv hbc ih
  exact h.2

/-- C6 witness: labeling instance 0 in a concrete two-space learner
preserves the lockstep invariant. -/
theorem lockstep_invariant_reachable_witness :
    lockstep (label_instances_in_all_datasets learnerC6 [0]) :=
  lockstep_invariant_reachable learnerC6 _ (by decide) (by decide)
    (Relation.ReflTransGen.single (LStep.label_instances learnerC6 [0]))

/-- C7: with no intervening model rebuild, computing the diversity score
twice returns the identical value and the identical cache, the second
call performs no similarity computation at all (it is served entirely
from the cache), and the first call invokes the model's similarity
computation at most once per `(x, y)` identifier pair (its invoked-key
list has no duplicates). -/
theorem compute_div_twice_served_from_cache (m : Model)
    (data : List Instance) (x : Instance) (h : PairHash) :
    (_compute_div m data x (_compute_div m data x h).2.1).1 =
      (_compute_div m data x h).1 ∧
    (_compute_div m data x (_compute_div m data x h).2.1).2.1 =
      (_compute_div m data x h).2.1 ∧
    (_compute_div m data x (_compute_div m data x h).2.1).2.2 = [] ∧
    (_compute_div m data x h).2.2.Nodup := by
  have hrun := compute_div_all_hits m data x (_compute_div m data x h).2.1
    (compute_div_covers m data x h)
  refine ⟨?_, ?_, ?_, (compute_div_calls_fresh m data x h).1⟩
  · rw [hrun, ← compute_div_sum_eq_final_lookups m data x h]
  · rw [hrun]
  · rw [hrun]

/-- C10: calling `undersample_labeled_datasets` with `k = 0` behaves
identically to calling it with `k` unspecified — the Python `if not k:`
guard treats `0` as absent, so the removal count is recomputed as
majority minus minority of feature space 0 and a caller cannot request
zero removals explicitly. -/
theorem undersample_k_zero_eq_unspecified (lds : List (List Instance)) :
    undersample_labeled_datasets lds (some 0) =
      undersample_labeled_datasets lds none := by
  cases lds with
  | nil => rfl
  | cons d0 rest => simp [undersample_labeled_datasets]

/-- C4 counterexample: the default query function installed by the
constructor does not return identifiers chosen at random from the pool —
invoking it (here with batch size 2) signals the configuration error
`"no query function provided!"`. -/
theorem default_query_function_signals_error :
    default_query_function 2 = .error "no query function provided!" := rfl

/-- C4 (amended): for a newly constructed learner the default query
function signals the configuration error `"no query function provided!"`
for every batch size instead of returning identifiers; uniform random
selection without replacement is implemented by the separate helper
`get_random_unlabeled_ids`, which (for any choice oracle, a duplicate-free
pool and `k` at most the pool size) returns `k` distinct identifiers
drawn from feature space 0's unlabeled pool — but it is not installed as
the default. -/
theorem default_query_errors_and_random_helper_selects
    (choice : List Nat → Nat) (s : LearnerState) (k kq : Nat)
    (hnd : (get_instance_ids (s.unlabeled_datasets.headD [])).Nodup)
    (hk : k ≤ (get_instance_ids (s.unlabeled_datasets.headD [])).length) :
    default_query_function kq = .error "no query function provided!" ∧
    ∃ sel, get_random_unlabeled_ids choice s k = .ok sel ∧
      sel.length = k ∧ sel.Nodup ∧
      sel ⊆ get_instance_ids (s.unlabeled_datasets.headD []) :=
  ⟨rfl, get_random_unlabeled_ids_go_spec choice k _ hnd hk⟩

/-- C4 witness: the amended theorem applied to a concrete two-instance
pool with batch size 2. -/
theorem default_query_errors_and_random_helper_selects_witness :
    default_query_function 1 = .error "no query function provided!" ∧
    ∃ sel, get_random_unlabeled_ids (fun _ => 0)
        ⟨[[mkInst 0 1, mkInst 1 (-1)]], [[]]⟩ 2 = .ok sel ∧
      sel.length = 2 ∧ sel.Nodup ∧
      sel ⊆ get_instance_ids
        ((⟨[[mkInst 0 1, mkInst 1 (-1)]], [[]]⟩ :
          LearnerState).unlabeled_datasets.headD []) :=
  default_query_errors_and_random_helper_selects (fun _ => 0)
    ⟨[[mkInst 0 1, mkInst 1 (-1)]], [[]]⟩ 2 1 (by decide) (by decide)

/-- C8: both aggregation policies raise the `"No models have been
initialized."` configuration error exactly when the model list is `None`
or empty; with at least one model built, neither policy raises it. -/
theorem aggregation_no_models_error_iff (models : Option (List Model))
    (X : List (List Int)) :
    (majority_predict models X = .error .noModels ↔
      models = none ∨ models = some []) ∧
    (cautious_predict models X = .error .noModels ↔
      models = none ∨ models = some []) := by
  constructor
  · cases models with
    | none => simp [majority_predict]
    | some ms =>
      cases ms with
      | nil => simp [majority_predict]
      | cons m ms =>
        simp only [majority_predict, List.length_cons]
        rw [if_neg (by simp)]
        constructor
        · intro h
          split at h
          · simp at h
          · split at h <;> simp at h
        · rintro (h | h) <;> simp at h
  · cases models with
    | none => simp [cautious_predict]
    | some ms =>
      cases ms with
      | nil => simp [cautious_predict]
      | cons m ms =>
        simp only [cautious_predict, List.length_cons]
        rw [if_neg (by simp)]
        constructor
        · intro h
          split at h <;> simp at h
        · rintro (h | h) <;> simp at h

/-- C3: with three feature spaces predicting `(-1, -1, +1)`, the vote
value `-1` has the strictly higher count, yet `majority_predict` returns
`+1`: `_arg_max`'s scan stores `i` instead of `i + 1` on improvement
(contradicting its own docstring), so with the distinct-votes list
`[+1, -1]` the improving step for `-1` records index 0. -/
theorem majority_predict_returns_minority_vote :
    majority_predict (some [modelConst (-1), modelConst (-1), modelConst 1])
      [[0], [0], [0]] = .ok 1 ∧
    ([(-1 : Int), -1, 1].count (-1) > [(-1 : Int), -1, 1].count 1) := by
  refine ⟨rfl, by decide⟩

/-- C2: `rebuild_models` leaves `div_hash` and `dist_hash` untouched, so
after the rebuild the caches still hold entries computed with the old
model: the diversity cache still maps `(0, 1)` to `oldModel`'s value 5,
and `_compute_cos` invoked with the new model serves that stale value
instead of the new model's similarity 7. -/
theorem rebuild_models_keeps_stale_cache :
    (rebuild_models (fun _ _ => newModel) learnerC2 false).map
        CacheLearner.div_hash = .ok [((0, 1), 5)] ∧
    (rebuild_models (fun _ _ => newModel) learnerC2 false).map
        CacheLearner.dist_hash = .ok [((0, 1), 3)] ∧
    (_compute_cos newModel xC yC [((0, 1), 5)]).1 = 5 ∧
    newModel.compute_cos_between_examples xC.point yC.point = 7 :=
  ⟨rfl, rfl, rfl, rfl⟩

/-- C5 (amended): when feature space 0's labeled partition has majority
count `M` and minority count `m` with `M > m ≥ 1` (the claim's `M > m`
alone is not enough: with `m = 0` the recomputed removal count `M` fails
the `k < M` guard and nothing is removed), `undersample_labeled_datasets`
with `k` unspecified returns a copy of the labeled partitions in which
exactly `M - m` majority-class instances — the same identifiers in every
feature space — have been removed, so every returned space has majority
count `m`, unchanged minority count, and length reduced by `M - m`.  The
operation builds its result from copies, leaving the original partitions
unreferenced and unchanged. -/
theorem undersample_default_equalizes (d0 : List Instance)
    (rest : List (List Instance))
    (hnd : (d0.map Instance.id).Nodup)
    (hpair : ∀ d ∈ rest, d.map (fun x => (x.id, x.lbl))
      = d0.map (fun x => (x.id, x.lbl)))
    (hm : 0 < number_of_minority_examples d0)
    (hMm : number_of_minority_examples d0 <
      number_of_majority_examples d0) :
    ∃ out, undersample_labeled_datasets (d0 :: rest) none = .ok out ∧
      out.length = rest.length + 1 ∧
      ∀ d' ∈ out,
        number_of_majority_examples d' = number_of_minority_examples d0 ∧
        number_of_minority_examples d' = number_of_minority_examples d0 ∧
        d'.length = d0.length -
          (number_of_majority_examples d0 -
            number_of_minority_examples d0) := by
  have hmle : number_of_majority_examples d0 ≤ d0.length :=
    List.length_filter_le _ _
  have hne : ¬ d0.length = 0 := by omega
  have hcond : ((number_of_majority_examples d0 : Int) -
      (number_of_minority_examples d0 : Int) <
        (number_of_majority_examples d0 : Int)) ∧
      (0 : Int) < (number_of_majority_examples d0 : Int) -
        (number_of_minority_examples d0 : Int) := ⟨by omega, by omega⟩
  have htoNat : ((number_of_majority_examples d0 : Int) -
      (number_of_minority_examples d0 : Int)).toNat
      = number_of_majority_examples d0 -
        number_of_minority_examples d0 := Int.toNat_sub _ _
  have hK : number_of_majority_examples d0 -
      number_of_minority_examples d0 ≤ number_of_majority_examples d0 :=
    by omega
  have heval : undersample_labeled_datasets (d0 :: rest) none
      = .ok ((undersample d0 (number_of_majority_examples d0 -
          number_of_minority_examples d0)).2
        :: rest.map (fun d => (remove_instances d
          ((undersample d0 (number_of_majority_examples d0 -
            number_of_minority_examples d0)).1.map Instance.id)).2)) := by
    simp only [undersample_labeled_datasets]
    rw [if_neg hne, if_pos hcond, htoNat]
  refine ⟨_, heval, by simp, ?_⟩
  intro d' hd'
  rcases List.mem_cons.mp hd' with rfl | hd2
  · obtain ⟨h1, h2, h3⟩ := undersample_space_counts d0 d0 hnd rfl
      (number_of_majority_examples d0 - number_of_minority_examples d0)
      hK
    have h1' : number_of_majority_examples (undersample d0
        (number_of_majority_examples d0 -
          number_of_minority_examples d0)).2
        = number_of_majority_examples d0 -
          (number_of_majority_examples d0 -
            number_of_minority_examples d0) := h1
    exact ⟨by rw [h1']; omega, h2, h3⟩
  · obtain ⟨d, hd, rfl⟩ := List.mem_map.mp hd2
    obtain ⟨h1, h2, h3⟩ := undersample_space_counts d0 d hnd (hpair d hd)
      (number_of_majority_examples d0 - number_of_minority_examples d0)
      hK
    have h1' : number_of_majority_examples ((remove_instances d
        ((undersample d0 (number_of_majority_examples d0 -
          number_of_minority_examples d0)).1.map Instance.id)).2)
        = number_of_majority_examples d0 -
          (number_of_majority_examples d0 -
            number_of_minority_examples d0) := h1
    exact ⟨by rw [h1']; omega, h2, h3⟩

/-- C5 witness: a two-feature-space learner whose labeled space 0 has
majority count 3 and minority count 1; default undersampling removes 2
majority instances from each space's copy. -/
theorem undersample_default_equalizes_witness :
    ∃ out, undersample_labeled_datasets
        [[mkInst 0 1, mkInst 1 (-1), mkInst 2 (-1), mkInst 3 (-1)],
         [mkInst 0 1, mkInst 1 (-1), mkInst 2 (-1), mkInst 3 (-1)]] none
        = .ok out ∧
      out.length = [[mkInst 0 1, mkInst 1 (-1), mkInst 2 (-1),
        mkInst 3 (-1)]].length + 1 ∧
      ∀ d' ∈ out,
        number_of_majority_examples d' = number_of_minority_examples
          [mkInst 0 1, mkInst 1 (-1), mkInst 2 (-1), mkInst 3 (-1)] ∧
        number_of_minority_examples d' = number_of_minority_examples
          [mkInst 0 1, mkInst 1 (-1), mkInst 2 (-1), mkInst 3 (-1)] ∧
        d'.length = [mkInst 0 1, mkInst 1 (-1), mkInst 2 (-1),
            mkInst 3 (-1)].length -
          (number_of_majority_examples
              [mkInst 0 1, mkInst 1 (-1), mkInst 2 (-1), mkInst 3 (-1)] -
            number_of_minority_examples
              [mkInst 0 1, mkInst 1 (-1), mkInst 2 (-1), mkInst 3 (-1)]) :=
  undersample_default_equalizes
    [mkInst 0 1, mkInst 1 (-1), mkInst 2 (-1), mkInst 3 (-1)]
    [[mkInst 0 1, mkInst 1 (-1), mkInst 2 (-1), mkInst 3 (-1)]]
    (by decide) (by decide) (by decide) (by decide)

/-- C5 counterexample: with majority count `M = 2` and minority count
`m = 0` (so `M > m`), the recomputed removal count `k = M - m = 2` fails
the `k < M` guard, so no instances are removed: the returned copy still
has majority count 2, not `m = 0`. -/
theorem undersample_skips_removal_when_minority_empty :
    undersample_labeled_datasets [[mkInst 0 (-1), mkInst 1 (-1)]] none
        = .ok [[mkInst 0 (-1), mkInst 1 (-1)]] ∧
    number_of_majority_examples [mkInst 0 (-1), mkInst 1 (-1)] = 2 ∧
    number_of_minority_examples [mkInst 0 (-1), mkInst 1 (-1)] = 0 := by
  refine ⟨rfl, rfl, rfl⟩

end CuriousSnake
